import Mathlib

/-!
Verification of the Yandex-Disk Telegram bot's navigator and transfer pipeline
(`src/modules/yandex/{keyboards,handlers,service,utils}.py`).

Paths and callback tokens are modelled at the byte level (`List Nat`, each
element < 256): Python encodes paths to UTF-8 bytes before base64-encoding
them, and Telegram's callback-data budget is counted in bytes.
-/

namespace YaDisk

/-- UTF-8 bytes of an ASCII string literal (all literals used here are ASCII). -/
def strBytes (s : String) : List Nat :=
  s.data.map Char.toNat

/-- Byte-list analogue of Python's `str.startswith`. -/
def startsWithBytes : List Nat → List Nat → Bool
  | [], _ => true
  | _ :: _, [] => false
  | p :: ps, x :: xs => p == x && startsWithBytes ps xs

/-! ## Path codec (`keyboards.py`, `encode_path` / `decode_path`)

`base64.urlsafe_b64encode` / `urlsafe_b64decode` modelled byte-for-byte. -/

/-- Value → character of the URL-safe base64 alphabet, as a byte. -/
def b64chr (n : Nat) : Nat :=
  if n < 26 then 65 + n
  else if n < 52 then 97 + (n - 26)
  else if n < 62 then 48 + (n - 52)
  else if n = 62 then 45
  else 95

/-- Character (byte) → value of the URL-safe base64 alphabet. -/
def b64val (c : Nat) : Option Nat :=
  if 65 ≤ c ∧ c ≤ 90 then some (c - 65)
  else if 97 ≤ c ∧ c ≤ 122 then some (c - 97 + 26)
  else if 48 ≤ c ∧ c ≤ 57 then some (c - 48 + 52)
  else if c = 45 then some 62
  else if c = 95 then some 63
  else none

/-- `base64.urlsafe_b64encode` on a byte list (61 is `'='`, the pad byte). -/
def b64encode : List Nat → List Nat
  | a :: b :: c :: rest =>
      b64chr (a / 4) :: b64chr (a % 4 * 16 + b / 16) ::
      b64chr (b % 16 * 4 + c / 64) :: b64chr (c % 64) :: b64encode rest
  | [a, b] => [b64chr (a / 4), b64chr (a % 4 * 16 + b / 16), b64chr (b % 16 * 4), 61]
  | [a] => [b64chr (a / 4), b64chr (a % 4 * 16), 61, 61]
  | [] => []

/-- `base64.urlsafe_b64decode` on a byte list; `none` models `binascii.Error`. -/
def b64decode : List Nat → Option (List Nat)
  | [] => some []
  | c1 :: c2 :: c3 :: c4 :: rest =>
      match b64val c1, b64val c2 with
      | some v1, some v2 =>
          if c3 = 61 then
            if c4 = 61 ∧ rest = [] then some [v1 * 4 + v2 / 16] else none
          else
            match b64val c3 with
            | some v3 =>
                if c4 = 61 then
                  if rest = [] then some [v1 * 4 + v2 / 16, v2 % 16 * 16 + v3 / 4]
                  else none
                else
                  match b64val c4 with
                  | some v4 =>
                      (b64decode rest).map
                        (fun ds => (v1 * 4 + v2 / 16) :: (v2 % 16 * 16 + v3 / 4) ::
                                   (v3 % 4 * 64 + v4) :: ds)
                  | none => none
            | none => none
      | _, _ => none
  | _ => none

/-- Python `str.rstrip('=')`: drop all trailing pad bytes. -/
def rstripPad (l : List Nat) : List Nat :=
  (l.reverse.dropWhile (fun c => c == 61)).reverse

/-- `encode_path` (keyboards.py:126): URL-safe base64 with padding stripped. -/
def encode_path (path : List Nat) : List Nat :=
  rstripPad (b64encode path)

/-- `decode_path` (keyboards.py:144): re-add padding, then base64-decode. -/
def decode_path (encoded : List Nat) : Option (List Nat) :=
  let padding := 4 - encoded.length % 4
  let encoded := if padding ≠ 4 then encoded ++ List.replicate padding 61 else encoded
  b64decode encoded

example : encode_path (strBytes "/Projects") = strBytes "L1Byb2plY3Rz" := by decide

example : decode_path (strBytes "L1Byb2plY3Rz") = some (strBytes "/Projects") := by decide

/-! ## Path digest (`keyboards.py`, `hash_path`)

`hashlib.md5(path.encode('utf-8')).hexdigest()[:8]`.  MD5 is modelled in full
on byte lists; 32-bit words are `Nat` reduced mod `2^32`. -/

/-- The 2^32 wrap modulus for MD5's 32-bit words. -/
def m32 : Nat := 4294967296

/-- MD5 per-step sine-derived constants `K[0..63]`. -/
def md5K : List Nat :=
  [0xd76aa478, 0xe8c7b756, 0x242070db, 0xc1bdceee,
   0xf57c0faf, 0x4787c62a, 0xa8304613, 0xfd469501,
   0x698098d8, 0x8b44f7af, 0xffff5bb1, 0x895cd7be,
   0x6b901122, 0xfd987193, 0xa679438e, 0x49b40821,
   0xf61e2562, 0xc040b340, 0x265e5a51, 0xe9b6c7aa,
   0xd62f105d, 0x02441453, 0xd8a1e681, 0xe7d3fbc8,
   0x21e1cde6, 0xc33707d6, 0xf4d50d87, 0x455a14ed,
   0xa9e3e905, 0xfcefa3f8, 0x676f02d9, 0x8d2a4c8a,
   0xfffa3942, 0x8771f681, 0x6d9d6122, 0xfde5380c,
   0xa4beea44, 0x4bdecfa9, 0xf6bb4b60, 0xbebfbc70,
   0x289b7ec6, 0xeaa127fa, 0xd4ef3085, 0x04881d05,
   0xd9d4d039, 0xe6db99e5, 0x1fa27cf8, 0xc4ac5665,
   0xf4292244, 0x432aff97, 0xab9423a7, 0xfc93a039,
   0x655b59c3, 0x8f0ccc92, 0xffeff47d, 0x85845dd1,
   0x6fa87e4f, 0xfe2ce6e0, 0xa3014314, 0x4e0811a1,
   0xf7537e82, 0xbd3af235, 0x2ad7d2bb, 0xeb86d391]

/-- MD5 per-step left-rotation amounts `s[0..63]`. -/
def md5S : List Nat :=
  [7, 12, 17, 22, 7, 12, 17, 22, 7, 12, 17, 22, 7, 12, 17, 22,
   5, 9, 14, 20, 5, 9, 14, 20, 5, 9, 14, 20, 5, 9, 14, 20,
   4, 11, 16, 23, 4, 11, 16, 23, 4, 11, 16, 23, 4, 11, 16, 23,
   6, 10, 15, 21, 6, 10, 15, 21, 6, 10, 15, 21, 6, 10, 15, 21]

/-- 32-bit left rotation. -/
def rotl32 (x s : Nat) : Nat :=
  ((x <<< s) ||| (x >>> (32 - s))) % m32

/-- MD5 round function (step index `i`, registers `b c d`). -/
def md5F (i b c d : Nat) : Nat :=
  if i < 16 then (b &&& c) ||| ((4294967295 ^^^ b) &&& d)
  else if i < 32 then (d &&& b) ||| ((4294967295 ^^^ d) &&& c)
  else if i < 48 then b ^^^ c ^^^ d
  else c ^^^ (b ||| (4294967295 ^^^ d))

/-- MD5 message-word index for step `i`. -/
def md5G (i : Nat) : Nat :=
  if i < 16 then i
  else if i < 32 then (5 * i + 1) % 16
  else if i < 48 then (3 * i + 5) % 16
  else (7 * i) % 16

/-- One 64-byte block: fold the 64 MD5 steps over registers `(A, B, C, D)`. -/
def md5ProcessBlock (st : Nat × Nat × Nat × Nat) (M : List Nat) : Nat × Nat × Nat × Nat :=
  let core := (List.range 64).foldl
    (fun (s : Nat × Nat × Nat × Nat) i =>
      let (A, B, C, D) := s
      let f := (md5F i B C D + A + md5K.getD i 0 + M.getD (md5G i) 0) % m32
      (D, (B + rotl32 f (md5S.getD i 0)) % m32, B, C))
    st
  ((st.1 + core.1) % m32, (st.2.1 + core.2.1) % m32,
   (st.2.2.1 + core.2.2.1) % m32, (st.2.2.2 + core.2.2.2) % m32)

/-- Split a padded message into 64-byte blocks (fuel = list length). -/
def chunk64 : Nat → List Nat → List (List Nat)
  | 0, _ => []
  | _, [] => []
  | fuel + 1, l => l.take 64 :: chunk64 fuel (l.drop 64)

/-- Decode a 64-byte block into 16 little-endian 32-bit words. -/
def toWords32 : List Nat → List Nat
  | b0 :: b1 :: b2 :: b3 :: rest =>
      (b0 + b1 * 256 + b2 * 65536 + b3 * 16777216) :: toWords32 rest
  | _ => []

/-- MD5 padding: `0x80`, zeros to 56 mod 64, then the bit length as 8 LE bytes. -/
def md5Pad (msg : List Nat) : List Nat :=
  let L := msg.length
  let zeros := (120 - (L + 1) % 64) % 64
  let bitLen := L * 8 % 18446744073709551616
  msg ++ [128] ++ List.replicate zeros 0 ++
    [bitLen % 256, bitLen / 256 % 256, bitLen / 65536 % 256, bitLen / 16777216 % 256,
     bitLen / 4294967296 % 256, bitLen / 1099511627776 % 256,
     bitLen / 281474976710656 % 256, bitLen / 72057594037927936 % 256]

/-- Little-endian bytes of a 32-bit word. -/
def le4 (w : Nat) : List Nat :=
  [w % 256, w / 256 % 256, w / 65536 % 256, w / 16777216 % 256]

/-- Lower-case hex digit byte for a value < 16. -/
def hexDigit (n : Nat) : Nat :=
  if n < 10 then 48 + n else 87 + n

/-- Two lower-case hex digit bytes of one byte. -/
def byteHex (b : Nat) : List Nat :=
  [hexDigit (b / 16), hexDigit (b % 16)]

/-- `hashlib.md5(msg).hexdigest()` as a byte list (32 lower-case hex chars). -/
def md5hex (msg : List Nat) : List Nat :=
  let padded := md5Pad msg
  let blocks := chunk64 padded.length padded
  let st := blocks.foldl (fun st blk => md5ProcessBlock st (toWords32 blk))
    (0x67452301, 0xefcdab89, 0x98badcfe, 0x10325476)
  (le4 st.1 ++ le4 st.2.1 ++ le4 st.2.2.1 ++ le4 st.2.2.2).flatMap byteHex

/-- `hash_path` (keyboards.py:162): first 8 hex chars of the MD5 of the path. -/
def hash_path (path : List Nat) : List Nat :=
  (md5hex path).take 8

/-! ## Smart codec (`keyboards.py`, `encode_path_smart` / `decode_path_smart`) -/

/-- `encode_path_smart` (keyboards.py:175): inline base64 with discriminator
`p:` if the token probe built with the longest prefix `nav_page_100_` fits in
60 bytes, otherwise `h:` plus the 8-char path digest. -/
def encode_path_smart (path : List Nat) : List Nat :=
  let encoded := encode_path path
  let test_callback := strBytes "nav_page_100_" ++ encoded
  if test_callback.length ≤ 60 then strBytes "p:" ++ encoded
  else strBytes "h:" ++ hash_path path

/-- `decode_path_smart` (keyboards.py:199): dispatch on the one-character
discriminator; `none` models a `binascii` decoding exception. -/
def decode_path_smart (encoded : List Nat) : Option (List Nat × Bool) :=
  if startsWithBytes (strBytes "p:") encoded then
    (decode_path (encoded.drop 2)).map (fun p => (p, false))
  else if startsWithBytes (strBytes "h:") encoded then
    some (encoded.drop 2, true)
  else
    (decode_path encoded).map (fun p => (p, false))

/-! ## Session path table (`keyboards.py`, `store_path_mapping` / `get_path_from_hash`)

The FSM context dict is modelled as an optional association list under the
`path_mappings` key (`none` = key absent); dict assignment is insert-at-front
and dict lookup is first match, observably identical to Python's overwrite. -/

/-- FSM context data: the optional `path_mappings` digest → path table. -/
structure StateData where
  path_mappings : Option (List (List Nat × List Nat))
deriving DecidableEq

/-- `store_path_mapping` (keyboards.py:223). -/
def store_path_mapping (sd : StateData) (path_hash actual_path : List Nat) : StateData :=
  match sd.path_mappings with
  | none => ⟨some [(path_hash, actual_path)]⟩
  | some m => ⟨some ((path_hash, actual_path) :: m)⟩

/-- `get_path_from_hash` (keyboards.py:236). -/
def get_path_from_hash (sd : StateData) (path_hash : List Nat) : Option (List Nat) :=
  match sd.path_mappings with
  | none => none
  | some m => (m.find? (fun e => e.1 == path_hash)).map (fun e => e.2)

/-! ## File browser keyboard (`keyboards.py`, `get_file_browser_keyboard`)

Button display texts are kept verbatim; callback payloads are byte lists. -/

/-- Render a byte list as a display string (used only for button captions). -/
def bytesToStr (l : List Nat) : String :=
  ⟨l.map Char.ofNat⟩

/-- `truncate` (keyboards.py:251). -/
def truncate (text : String) (max_len : Nat) : String :=
  if text.length > max_len then (text.take (max_len - 3)) ++ "..." else text

/-- Python `str.split(sep)` on byte lists (keeps empty fields). -/
def splitBytes (sep : Nat) : List Nat → List (List Nat)
  | [] => [[]]
  | c :: rest =>
      let r := splitBytes sep rest
      if c = sep then [] :: r
      else match r with
        | [] => [[c]]
        | f :: fs => (c :: f) :: fs

/-- Python `sep.join` on byte lists. -/
def joinBytes (sep : Nat) : List (List Nat) → List Nat
  | [] => []
  | [x] => x
  | x :: xs => x ++ sep :: joinBytes sep xs

/-- Python `str.rstrip(ch)` on byte lists. -/
def rstripByte (b : Nat) (l : List Nat) : List Nat :=
  (l.reverse.dropWhile (fun c => c == b)).reverse

/-- Concatenate display strings with a separator (`" > ".join`). -/
def joinWith (sep : String) : List String → String
  | [] => ""
  | [x] => x
  | x :: xs => x ++ sep ++ joinWith sep xs

/-- `format_breadcrumb` (keyboards.py:266): at most the 3 trailing segments. -/
def format_breadcrumb (path : List Nat) : String :=
  if path = strBytes "/" ∨ path = [] then "📂 /"
  else
    let parts := (splitBytes 47 path).filter (fun p => p ≠ [])
    if parts.length ≤ 3 then
      "📂 / > " ++ joinWith " > " (parts.map bytesToStr)
    else
      "📂 ... > " ++ joinWith " > " ((parts.drop (parts.length - 3)).map bytesToStr)

/-- Browser mode: plain browsing, or choosing an upload destination. -/
inductive BrowseMode where
  | browse
  | select
deriving DecidableEq

/-- One directory entry as delivered by the Yandex API (`item` dict). -/
structure DiskItem where
  name : String
  path : List Nat
  itemType : String
  public_url : Option String
deriving DecidableEq

/-- One inline keyboard button: caption and callback payload bytes. -/
structure Button where
  text : String
  callback_data : List Nat
deriving DecidableEq

/-- `get_file_browser_keyboard` (keyboards.py:296): breadcrumb header, folder
rows, file rows, pagination row (only when `total > limit`), up row, select
row (select mode only), close row. Offsets are `Int` like Python ints. -/
def get_file_browser_keyboard (items : List DiskItem) (current_path : List Nat)
    (offset total : Int) (mode : BrowseMode) : List (List Button) :=
  let limit : Int := 20
  let headRow := [[Button.mk (format_breadcrumb current_path) (strBytes "noop")]]
  let folders := items.filter (fun i => i.itemType == "dir")
  let files := items.filter (fun i => i.itemType == "file")
  let folderRows := folders.map (fun folder =>
    [Button.mk ("📁 " ++ truncate folder.name 35)
      (strBytes "nav_open_" ++ encode_path_smart folder.path)])
  let fileRows := files.map (fun file =>
    let encoded := encode_path_smart file.path
    [Button.mk ("📄 " ++ truncate file.name 20) (strBytes "nav_info_" ++ encoded),
     Button.mk (if (file.public_url.getD "") ≠ "" then "📋" else "🔗")
       (strBytes "nav_publish_" ++ encoded),
     Button.mk "🗑" (strBytes "nav_delete_" ++ encoded)])
  let pageRows :=
    if total > limit then
      let navButtons :=
        (if offset > 0 then
          let prev_offset := max 0 (offset - limit)
          [Button.mk "⬅️ Назад"
            (strBytes "nav_page_" ++ strBytes (toString prev_offset) ++ strBytes "_" ++
              encode_path_smart current_path)]
        else []) ++
        (if offset + limit < total then
          let next_offset := offset + limit
          [Button.mk "➡️ Далее"
            (strBytes "nav_page_" ++ strBytes (toString next_offset) ++ strBytes "_" ++
              encode_path_smart current_path)]
        else [])
      if navButtons ≠ [] then [navButtons] else []
    else []
  let upRows :=
    if current_path ≠ strBytes "/" ∧ current_path ≠ [] then
      let parent0 := joinBytes 47 ((splitBytes 47 (rstripByte 47 current_path)).dropLast)
      let parent_path := if parent0 = [] then strBytes "/" else parent0
      [[Button.mk "⬆️ Уровень выше" (strBytes "nav_up_" ++ encode_path_smart parent_path)]]
    else []
  let selectRows :=
    if mode = BrowseMode.select then
      [[Button.mk "📤 Загрузить сюда" (strBytes "nav_select_" ++ encode_path_smart current_path)]]
    else []
  let closeRow := [[Button.mk "❌ Закрыть" (strBytes "nav_close")]]
  headRow ++ folderRows ++ fileRows ++ pageRows ++ upRows ++ selectRows ++ closeRow

/-! ## Navigation callback handlers (`handlers.py`)

Each handler resolves the token (inline decode or table lookup) and re-renders
via `browse_directory(callback, user_id, path, offset, state)`. The outcome is
the `browse_directory` call it issues (or the alert it answers with). -/

/-- Outcome of a navigation callback: a decoding exception, the stale-path
alert, or a `browse_directory(path, offset, mode)` re-render. -/
inductive NavResult where
  | decodeError
  | staleAlert
  | browseCall (path : List Nat) (offset : Int) (mode : BrowseMode)
deriving DecidableEq

/-- Python `int()` over the digit bytes of a token field. -/
def parseIntBytes (l : List Nat) : Option Int :=
  match l with
  | [] => none
  | 45 :: rest =>
      if rest ≠ [] ∧ rest.all (fun c => 48 ≤ c && c ≤ 57) then
        some (-(rest.foldl (fun a c => a * 10 + (c - 48)) 0 : Nat))
      else none
  | _ =>
      if l.all (fun c => 48 ≤ c && c ≤ 57) then
        some ((l.foldl (fun a c => a * 10 + (c - 48)) 0 : Nat))
      else none

/-- `callback_nav_open` (handlers.py:910): open a folder. The re-render call
`browse_directory(..., path, 0, state)` leaves `mode` at its default
`"browse"`. -/
def callback_nav_open (data : List Nat) (sd : StateData) : NavResult :=
  let encoded_path := data.drop 9
  match decode_path_smart encoded_path with
  | none => NavResult.decodeError
  | some (path_or_hash, is_hash) =>
      if is_hash then
        match get_path_from_hash sd path_or_hash with
        | none => NavResult.staleAlert
        | some actual_path => NavResult.browseCall actual_path 0 BrowseMode.browse
      else NavResult.browseCall path_or_hash 0 BrowseMode.browse

/-- `callback_nav_page` (handlers.py:937): `data.split('_', 3)`, parse the
offset, resolve the path, re-render at that offset (mode again defaulted). -/
def callback_nav_page (data : List Nat) (sd : StateData) : NavResult :=
  let after := data.drop 9
  let offsetBytes := after.takeWhile (fun c => c != 95)
  let encoded_path := (after.dropWhile (fun c => c != 95)).drop 1
  match parseIntBytes offsetBytes with
  | none => NavResult.decodeError
  | some offset =>
      match decode_path_smart encoded_path with
      | none => NavResult.decodeError
      | some (path_or_hash, is_hash) =>
          if is_hash then
            match get_path_from_hash sd path_or_hash with
            | none => NavResult.staleAlert
            | some actual_path => NavResult.browseCall actual_path offset BrowseMode.browse
          else NavResult.browseCall path_or_hash offset BrowseMode.browse

/-- `callback_nav_up` (handlers.py:1280): go to the parent (mode defaulted). -/
def callback_nav_up (data : List Nat) (sd : StateData) : NavResult :=
  let encoded_path := data.drop 7
  match decode_path_smart encoded_path with
  | none => NavResult.decodeError
  | some (path_or_hash, is_hash) =>
      if is_hash then
        match get_path_from_hash sd path_or_hash with
        | none => NavResult.staleAlert
        | some actual_path => NavResult.browseCall actual_path 0 BrowseMode.browse
      else NavResult.browseCall path_or_hash 0 BrowseMode.browse

/-! ## Upload pipeline (`handlers.py`, `handle_file_upload`)

The handler is a pure function of an environment fixing each collaborator's
outcome. The blob fetch is modelled as the spec's atomic
`fetchBlob -> localBytes | failure` (on failure no staged file exists), and
local file removal is the reliable local I/O of spec §5. -/

/-- Outcome of the credential lookup inside `handle_file_upload`. -/
inductive TokenFetch where
  | dbError
  | missingOrInvalid
  | valid (folder_name : List Nat)
deriving DecidableEq

/-- External calls `handle_file_upload` can issue, in order of issue. -/
inductive ExtCall where
  | dbGetToken
  | fetchBlob
  | getUploadUrl
  | streamUpload
  | publishFile
  | dbSaveRecord
  | remoteDelete
deriving DecidableEq

/-- User-visible messages (sends and status edits) of `handle_file_upload`. -/
inductive UserMsg where
  | oversized (actual maximum : Nat)
  | tokenNotConfigured
  | tokenDbError
  | statusStart
  | fetchFailed
  | uploadUrlFailed
  | streamFailed
  | success (hasPublicLink : Bool)
deriving DecidableEq

/-- `logger.error` entries of `handle_file_upload`. -/
inductive LogMsg where
  | errorGettingToken
  | errorSavingMetadata
deriving DecidableEq

/-- Collaborator outcomes for one run of `handle_file_upload`. -/
structure UploadEnv where
  file_size : Nat
  upload_folder : Option (List Nat)
  tokenFetch : TokenFetch
  fetchOk : Bool
  uploadUrlOk : Bool
  uploadOk : Bool
  publishUrl : Option (List Nat)
  dbSaveOk : Bool
deriving DecidableEq

/-- Observable trace of one run of `handle_file_upload`. -/
structure UploadTrace where
  calls : List ExtCall
  msgs : List UserMsg
  logs : List LogMsg
  tempFileExists : Bool
deriving DecidableEq

/-- `cleanup_temp_file` (utils.py:109): remove the staged file if present. -/
def cleanup_temp_file (t : UploadTrace) : UploadTrace :=
  { t with tempFileExists := false }

/-- `MAX_FILE_SIZE` (handlers.py:279): 2 GB. -/
def MAX_FILE_SIZE : Nat := 2 * 1024 * 1024 * 1024

/-- `handle_file_upload` (handlers.py:265): size gate, credential and target
folder resolution, staging, upload-URL request, chunked stream, publish,
metadata persistence (failure only logged), success report; the `try` block's
`finally` always runs `cleanup_temp_file`. -/
def handle_file_upload (env : UploadEnv) : UploadTrace :=
  if env.file_size > MAX_FILE_SIZE then
    { calls := [], msgs := [UserMsg.oversized env.file_size MAX_FILE_SIZE],
      logs := [], tempFileExists := false }
  else
    match env.tokenFetch with
    | TokenFetch.dbError =>
        { calls := [ExtCall.dbGetToken], msgs := [UserMsg.tokenDbError],
          logs := [LogMsg.errorGettingToken], tempFileExists := false }
    | TokenFetch.missingOrInvalid =>
        { calls := [ExtCall.dbGetToken], msgs := [UserMsg.tokenNotConfigured],
          logs := [], tempFileExists := false }
    | TokenFetch.valid default_folder =>
        let _folder_name := env.upload_folder.getD default_folder
        let afterStatus : UploadTrace :=
          { calls := [ExtCall.dbGetToken, ExtCall.fetchBlob],
            msgs := [UserMsg.statusStart], logs := [], tempFileExists := false }
        if ¬ env.fetchOk then
          { afterStatus with msgs := afterStatus.msgs ++ [UserMsg.fetchFailed] }
        else
          let staged := { afterStatus with tempFileExists := true }
          let body : UploadTrace :=
            let t1 := { staged with calls := staged.calls ++ [ExtCall.getUploadUrl] }
            if ¬ env.uploadUrlOk then
              cleanup_temp_file { t1 with msgs := t1.msgs ++ [UserMsg.uploadUrlFailed] }
            else
              let t2 := { t1 with calls := t1.calls ++ [ExtCall.streamUpload] }
              if ¬ env.uploadOk then
                cleanup_temp_file { t2 with msgs := t2.msgs ++ [UserMsg.streamFailed] }
              else
                let t3 := { t2 with calls := t2.calls ++ [ExtCall.publishFile] }
                let t4 := { t3 with
                            calls := t3.calls ++ [ExtCall.dbSaveRecord]
                            logs := t3.logs ++
                              (if env.dbSaveOk then [] else [LogMsg.errorSavingMetadata]) }
                { t4 with msgs := t4.msgs ++ [UserMsg.success env.publishUrl.isSome] }
          cleanup_temp_file body

/-! ## Progress stream (`service.py` `upload_file` + handler `progress_callback`)

The 64 KiB read loop produces chunk sizes; each chunk advances `uploaded` and
computes `int((uploaded / file_size) * 100)` (modelled as the exact floor
`uploaded * 100 / S`, faithful for sizes within the 2 GB gate); the handler's
closure reports only when the percentage advanced by ≥ 10 or reached 100. -/

/-- `CHUNK_SIZE` (service.py:135): 64 KiB. -/
def CHUNK_SIZE : Nat := 65536

/-- Chunk sizes produced by the `f.read(chunk_size)` loop for a file of `S`
bytes: full chunks, then the remainder if any. -/
def mkChunks (S : Nat) : List Nat :=
  List.replicate (S / CHUNK_SIZE) CHUNK_SIZE ++
    (if S % CHUNK_SIZE = 0 then [] else [S % CHUNK_SIZE])

/-- The percentages the handler's throttled `progress_callback` reports, over
a chunk list, given the bytes already sent and the last reported percent. -/
def progressReports : List Nat → Nat → Nat → Nat → List Nat
  | [], _, _, _ => []
  | c :: cs, S, uploaded, last_percent =>
      let uploaded := uploaded + c
      let percent := uploaded * 100 / S
      if 10 ≤ (percent : Int) - (last_percent : Int) ∨ 100 ≤ percent then
        percent :: progressReports cs S uploaded percent
      else
        progressReports cs S uploaded last_percent

/-- Full reported-percentage sequence for an upload of `S` bytes. -/
def upload_reports (S : Nat) : List Nat :=
  progressReports (mkChunks S) S 0 0

/-- `progress_callback` with the status-edit outcome made explicit: `orc k`
tells whether the `k`-th `edit_text` succeeds or raises; the raise is caught
by the callback's bare `except` (handlers.py:377). Returns the reported
percentages and the final `uploaded` count. -/
def progressReportsO : List Nat → Nat → Nat → Nat → (Nat → Bool) → Nat → List Nat × Nat
  | [], _, uploaded, _, _, _ => ([], uploaded)
  | c :: cs, S, uploaded, last_percent, orc, k =>
      let uploaded := uploaded + c
      let percent := uploaded * 100 / S
      if 10 ≤ (percent : Int) - (last_percent : Int) ∨ 100 ≤ percent then
        let editResult : Except Unit Unit :=
          if orc k then Except.ok () else Except.error ()
        match editResult with
        | Except.ok _ =>
            let r := progressReportsO cs S uploaded percent orc (k + 1)
            (percent :: r.1, r.2)
        | Except.error _ =>
            let r := progressReportsO cs S uploaded percent orc (k + 1)
            (percent :: r.1, r.2)
      else
        progressReportsO cs S uploaded last_percent orc k

/-! ## Lemmas: base64 round trip -/

theorem b64val_b64chr {n : Nat} (h : n < 64) : b64val (b64chr n) = some n := by
  revert h; revert n; decide

theorem b64chr_ne_pad {n : Nat} (h : n < 64) : b64chr n ≠ 61 := by
  revert h; revert n; decide

theorem b64decode_b64encode : ∀ p : List Nat, (∀ b ∈ p, b < 256) →
    b64decode (b64encode p) = some p
  | [], _ => rfl
  | [a], h => by
      have ha : a < 256 := h a (by simp)
      have h1 : a / 4 < 64 := by omega
      have h2 : a % 4 * 16 < 64 := by omega
      simp [b64encode, b64decode, b64val_b64chr h1, b64val_b64chr h2]
      omega
  | [a, b], h => by
      have ha : a < 256 := h a (by simp)
      have hb : b < 256 := h b (by simp)
      have h1 : a / 4 < 64 := by omega
      have h2 : a % 4 * 16 + b / 16 < 64 := by omega
      have h3 : b % 16 * 4 < 64 := by omega
      simp [b64encode, b64decode, b64val_b64chr h1, b64val_b64chr h2,
        if_neg (b64chr_ne_pad h3), b64val_b64chr h3]
      constructor
      · omega
      · omega
  | a :: b :: c :: rest, h => by
      have ha : a < 256 := h a (by simp)
      have hb : b < 256 := h b (by simp)
      have hc : c < 256 := h c (by simp)
      have hrest : ∀ x ∈ rest, x < 256 := fun x hx => h x (by simp [hx])
      have h1 : a / 4 < 64 := by omega
      have h2 : a % 4 * 16 + b / 16 < 64 := by omega
      have h3 : b % 16 * 4 + c / 64 < 64 := by omega
      have h4 : c % 64 < 64 := by omega
      simp [b64encode, b64decode, b64val_b64chr h1, b64val_b64chr h2,
        if_neg (b64chr_ne_pad h3), b64val_b64chr h3, if_neg (b64chr_ne_pad h4),
        b64val_b64chr h4, b64decode_b64encode rest hrest]
      refine ⟨by omega, by omega, by omega⟩

/-- Pad length the encoder appends for a message of `n` bytes. -/
def padLen (n : Nat) : Nat := (3 - n % 3) % 3

theorem b64encode_length : ∀ p : List Nat,
    (b64encode p).length = 4 * ((p.length + 2) / 3)
  | [] => rfl
  | [a] => by simp [b64encode]
  | [a, b] => by simp [b64encode]
  | a :: b :: c :: rest => by
      simp only [b64encode, List.length_cons, b64encode_length rest]
      omega

theorem b64encode_struct : ∀ p : List Nat, p ≠ [] →
    ∃ core m, m < 64 ∧ core ≠ [] ∧ core.getLast? = some (b64chr m) ∧
      b64encode p = core ++ List.replicate (padLen p.length) 61
  | [], h => absurd rfl h
  | [a], _ => by
      refine ⟨[b64chr (a / 4), b64chr (a % 4 * 16)], a % 4 * 16, by omega, by simp, rfl,
        by simp [b64encode, padLen]⟩
  | [a, b], _ => by
      refine ⟨[b64chr (a / 4), b64chr (a % 4 * 16 + b / 16), b64chr (b % 16 * 4)],
        b % 16 * 4, by omega, by simp, rfl, by simp [b64encode, padLen]⟩
  | a :: b :: c :: rest, _ => by
      rcases Decidable.em (rest = []) with hr | hr
      · subst hr
        refine ⟨[b64chr (a / 4), b64chr (a % 4 * 16 + b / 16),
          b64chr (b % 16 * 4 + c / 64), b64chr (c % 64)], c % 64, by omega, by simp, rfl,
          by simp [b64encode, padLen]⟩
      · obtain ⟨core, m, hm, hcne, hlast, henc⟩ := b64encode_struct rest hr
        refine ⟨[b64chr (a / 4), b64chr (a % 4 * 16 + b / 16),
          b64chr (b % 16 * 4 + c / 64), b64chr (c % 64)] ++ core, m, hm, by simp, ?_, ?_⟩
        · rw [List.getLast?_append, hlast]
          rfl
        · have hp : padLen (a :: b :: c :: rest).length = padLen rest.length := by
            simp only [padLen, List.length_cons]
            omega
          simp only [b64encode, henc, hp, List.append_assoc, List.cons_append,
            List.nil_append]

theorem rstripPad_append_replicate (l : List Nat) (k : Nat) :
    rstripPad (l ++ List.replicate k 61) = rstripPad l := by
  unfold rstripPad
  rw [List.reverse_append, List.reverse_replicate]
  congr 1
  induction k with
  | zero => simp
  | succ n ih => simp [List.replicate_succ, ih]

theorem rstripPad_of_getLast_ne (l : List Nat) (x : Nat) (hx : l.getLast? = some x)
    (hne : x ≠ 61) : rstripPad l = l := by
  unfold rstripPad
  rw [← List.head?_reverse] at hx
  rcases hrev : l.reverse with _ | ⟨y, t⟩
  · simp [hrev] at hx
  · rw [hrev] at hx
    simp only [List.head?_cons, Option.some.injEq] at hx
    subst hx
    rw [List.dropWhile_cons_of_neg (by simpa using hne)]
    rw [← hrev, List.reverse_reverse]

/-- The base64/strip/re-pad round trip (`decode_path (encode_path p) = p`). -/
theorem decode_path_encode_path (p : List Nat) (h : ∀ b ∈ p, b < 256) :
    decode_path (encode_path p) = some p := by
  rcases Decidable.em (p = []) with hp | hp
  · subst hp
    rfl
  · obtain ⟨core, m, hm, hcne, hlast, henc⟩ := b64encode_struct p hp
    have hstrip : encode_path p = core := by
      rw [encode_path, henc, rstripPad_append_replicate,
        rstripPad_of_getLast_ne core (b64chr m) hlast (b64chr_ne_pad hm)]
    have hlen4 : core.length + padLen p.length = 4 * ((p.length + 2) / 3) := by
      have := b64encode_length p
      rw [henc, List.length_append, List.length_replicate] at this
      omega
    have hplt : padLen p.length < 3 := by
      unfold padLen
      omega
    have hg : 1 ≤ (p.length + 2) / 3 := by
      have : 1 ≤ p.length := List.length_pos.mpr hp
      omega
    rw [decode_path, hstrip]
    rcases hk : padLen p.length with _ | _ | _ | k
    · have hmod : core.length % 4 = 0 := by omega
      simp only [hmod]
      have : core = b64encode p := by rw [henc, hk]; simp
      rw [this]
      simp only [if_neg (by omega : ¬ (4 - 0 ≠ 4))]
      exact b64decode_b64encode p h
    · have hmod : core.length % 4 = 3 := by omega
      simp only [hmod]
      rw [if_pos (by omega : 4 - 3 ≠ 4)]
      have : core ++ List.replicate (4 - 3) 61 = b64encode p := by
        rw [henc, hk]
      rw [this]
      exact b64decode_b64encode p h
    · have hmod : core.length % 4 = 2 := by omega
      simp only [hmod]
      rw [if_pos (by omega : 4 - 2 ≠ 4)]
      have : core ++ List.replicate (4 - 2) 61 = b64encode p := by
        rw [henc, hk]
      rw [this]
      exact b64decode_b64encode p h
    · omega

/-! ## Lemmas: progress throttle -/

/-- Relation of a reported list to the previously reported percentage: each
entry is ≥ its predecessor and either ≥ 10 above it or equal to 100. -/
def goodFrom : Nat → List Nat → Prop
  | _, [] => True
  | l, x :: xs => (l ≤ x ∧ (l + 10 ≤ x ∨ x = 100)) ∧ goodFrom x xs

theorem goodFrom_chain : ∀ (l : Nat) (rs : List Nat), goodFrom l rs →
    List.Chain' (fun a b => a ≤ b ∧ (a + 10 ≤ b ∨ b = 100)) rs
  | _, [], _ => List.chain'_nil
  | _, [_], _ => List.chain'_singleton _
  | l, x :: y :: ys, h => by
      obtain ⟨_, hrest⟩ := h
      exact List.chain'_cons.mpr ⟨hrest.1, goodFrom_chain x (y :: ys) hrest⟩

theorem progressReports_spec (cs : List Nat) : ∀ (S u last : Nat),
    0 < S → (∀ c ∈ cs, 0 < c) → u + cs.sum = S → last ≤ u * 100 / S →
    goodFrom last (progressReports cs S u last) ∧
    (cs ≠ [] → (progressReports cs S u last).getLast? = some 100) ∧
    (progressReports cs S u last).count 100 = (if cs = [] then 0 else 1) := by
  induction cs with
  | nil =>
      intro S u last _ _ _ _
      exact ⟨trivial, fun h => absurd rfl h, by simp [progressReports]⟩
  | cons c cs ih =>
      intro S u last hS hpos hsum hlast
      have hcsum : u + c + cs.sum = S := by
        simp only [List.sum_cons] at hsum
        omega
      have hub : u * 100 / S ≤ 100 := by
        calc u * 100 / S ≤ S * 100 / S :=
              Nat.div_le_div_right (Nat.mul_le_mul_right 100 (by omega))
          _ = 100 := by rw [Nat.mul_comm, Nat.mul_div_cancel _ hS]
      rcases Decidable.em (cs = []) with hcs | hcs
      · subst hcs
        have huS : u + c = S := by simpa using hcsum
        have hp : (u + c) * 100 / S = 100 := by
          rw [huS, Nat.mul_comm, Nat.mul_div_cancel _ hS]
        simp only [progressReports, hp]
        rw [if_pos (Or.inr (by omega))]
        refine ⟨⟨⟨by omega, Or.inr rfl⟩, trivial⟩, fun _ => rfl, by simp [progressReports]⟩
      · have hsumpos : 0 < cs.sum := by
          cases cs with
          | nil => exact absurd rfl hcs
          | cons d ds =>
              have := hpos d (by simp)
              simp only [List.sum_cons]
              omega
        have huc : u + c < S := by omega
        have hplt : (u + c) * 100 / S < 100 := by
          rw [Nat.div_lt_iff_lt_mul hS]
          calc (u + c) * 100 < S * 100 := by
                exact Nat.mul_lt_mul_of_lt_of_le huc (le_refl 100) (by omega)
            _ = 100 * S := Nat.mul_comm _ _
        have hmono : u * 100 / S ≤ (u + c) * 100 / S :=
          Nat.div_le_div_right (Nat.mul_le_mul_right 100 (by omega))
        have hpos' : ∀ x ∈ cs, 0 < x := fun x hx => hpos x (by simp [hx])
        rcases Decidable.em (10 ≤ (((u + c) * 100 / S : Nat) : Int) - (last : Int) ∨
            100 ≤ (u + c) * 100 / S) with hg | hg
        · have hgl : last + 10 ≤ (u + c) * 100 / S := by
            rcases hg with hg | hg
            · omega
            · omega
          obtain ⟨ihg, ihl, ihc⟩ := ih S (u + c) ((u + c) * 100 / S) hS hpos'
            (by omega) (le_refl _)
          have ihl' := ihl hcs
          have hrne : progressReports cs S (u + c) ((u + c) * 100 / S) ≠ [] := by
            intro h
            rw [h] at ihl'
            simp at ihl'
          simp only [progressReports, if_pos hg]
          refine ⟨⟨⟨by omega, Or.inl hgl⟩, ihg⟩, ?_, ?_⟩
          · intro _
            rcases hr : progressReports cs S (u + c) ((u + c) * 100 / S) with _ | ⟨r, rs⟩
            · exact absurd hr hrne
            · rw [hr] at ihl'
              rw [List.getLast?_cons_cons]
              exact ihl'
          · rw [if_neg hcs] at ihc
            simp only [if_neg (by simp : ¬ (c :: cs = []))]
            rw [List.count_cons, ihc]
            have : ¬ ((u + c) * 100 / S == 100) = true := by
              simp only [beq_iff_eq]
              omega
            simp [this]
        · obtain ⟨ihg, ihl, ihc⟩ := ih S (u + c) last hS hpos' (by omega) (by omega)
          simp only [progressReports, if_neg hg]
          rw [if_neg hcs] at ihc
          exact ⟨ihg, fun _ => ihl hcs, by rw [ihc]; simp [hcs]⟩

theorem mkChunks_pos (S : Nat) : ∀ c ∈ mkChunks S, 0 < c := by
  intro c hc
  simp only [mkChunks, List.mem_append] at hc
  rcases hc with hc | hc
  · rw [List.eq_of_mem_replicate hc]
    simp [CHUNK_SIZE]
  · rcases Decidable.em (S % CHUNK_SIZE = 0) with h | h
    · simp [h] at hc
    · rw [if_neg h] at hc
      simp only [List.mem_singleton] at hc
      omega

theorem mkChunks_sum (S : Nat) : (mkChunks S).sum = S := by
  have hdm := Nat.div_add_mod S 65536
  simp only [mkChunks, CHUNK_SIZE, List.sum_append, List.sum_replicate, smul_eq_mul]
  rcases Decidable.em (S % 65536 = 0) with h | h
  · simp [h]
    omega
  · rw [if_neg h]
    simp
    omega

theorem mkChunks_ne_nil (S : Nat) (hS : 0 < S) : mkChunks S ≠ [] := by
  intro h
  have := mkChunks_sum S
  rw [h] at this
  simp at this
  omega

/-! ## Lemmas: keyboard pagination tokens -/

/-- The callback payloads of pagination controls in a rendered keyboard. -/
def pageTokens (kb : List (List Button)) : List (List Nat) :=
  (kb.flatten.map (fun b => b.callback_data)).filter
    (fun d => startsWithBytes (strBytes "nav_page_") d)

theorem startsWithBytes_append (p x : List Nat) : startsWithBytes p (p ++ x) = true := by
  induction p with
  | nil => rfl
  | cons a as ih => simp [startsWithBytes, ih]

theorem sw_page_noop : startsWithBytes (strBytes "nav_page_") (strBytes "noop") = false := by
  decide

theorem sw_page_close : startsWithBytes (strBytes "nav_page_") (strBytes "nav_close") = false := by
  decide

theorem sw_page_open (x : List Nat) :
    startsWithBytes (strBytes "nav_page_") (strBytes "nav_open_" ++ x) = false := by
  have h1 : strBytes "nav_page_" = [110, 97, 118, 95, 112, 97, 103, 101, 95] := by decide
  have h2 : strBytes "nav_open_" = [110, 97, 118, 95, 111, 112, 101, 110, 95] := by decide
  rw [h1, h2]
  simp [startsWithBytes]

theorem sw_page_info (x : List Nat) :
    startsWithBytes (strBytes "nav_page_") (strBytes "nav_info_" ++ x) = false := by
  have h1 : strBytes "nav_page_" = [110, 97, 118, 95, 112, 97, 103, 101, 95] := by decide
  have h2 : strBytes "nav_info_" = [110, 97, 118, 95, 105, 110, 102, 111, 95] := by decide
  rw [h1, h2]
  simp [startsWithBytes]

theorem sw_page_publish (x : List Nat) :
    startsWithBytes (strBytes "nav_page_") (strBytes "nav_publish_" ++ x) = false := by
  have h1 : strBytes "nav_page_" = [110, 97, 118, 95, 112, 97, 103, 101, 95] := by decide
  have h2 : strBytes "nav_publish_" =
      [110, 97, 118, 95, 112, 117, 98, 108, 105, 115, 104, 95] := by decide
  rw [h1, h2]
  simp [startsWithBytes]

theorem sw_page_delete (x : List Nat) :
    startsWithBytes (strBytes "nav_page_") (strBytes "nav_delete_" ++ x) = false := by
  have h1 : strBytes "nav_page_" = [110, 97, 118, 95, 112, 97, 103, 101, 95] := by decide
  have h2 : strBytes "nav_delete_" = [110, 97, 118, 95, 100, 101, 108, 101, 116, 101, 95] := by
    decide
  rw [h1, h2]
  simp [startsWithBytes]

theorem sw_page_up (x : List Nat) :
    startsWithBytes (strBytes "nav_page_") (strBytes "nav_up_" ++ x) = false := by
  have h1 : strBytes "nav_page_" = [110, 97, 118, 95, 112, 97, 103, 101, 95] := by decide
  have h2 : strBytes "nav_up_" = [110, 97, 118, 95, 117, 112, 95] := by decide
  rw [h1, h2]
  simp [startsWithBytes]

theorem sw_page_select (x : List Nat) :
    startsWithBytes (strBytes "nav_page_") (strBytes "nav_select_" ++ x) = false := by
  have h1 : strBytes "nav_page_" = [110, 97, 118, 95, 112, 97, 103, 101, 95] := by decide
  have h2 : strBytes "nav_select_" =
      [110, 97, 118, 95, 115, 101, 108, 101, 99, 116, 95] := by decide
  rw [h1, h2]
  simp [startsWithBytes]

theorem noPage_rows {α : Type} (row : α → List Button)
    (h : ∀ a, ∀ b ∈ row a, startsWithBytes (strBytes "nav_page_") b.callback_data = false) :
    ∀ l : List α,
      (((l.map row).flatten.map (fun b => b.callback_data)).filter
        (fun d => startsWithBytes (strBytes "nav_page_") d)) = [] := by
  intro l
  induction l with
  | nil => rfl
  | cons a as ih =>
      simp only [List.map_cons, List.flatten_cons, List.map_append, List.filter_append, ih,
        List.append_nil]
      rw [List.filter_eq_nil_iff]
      intro d hd
      simp only [List.mem_map] at hd
      obtain ⟨b, hb, rfl⟩ := hd
      simp [h a b hb]

theorem pageTokens_characterization (items : List DiskItem) (path : List Nat)
    (offset total : Int) (mode : BrowseMode) :
    pageTokens (get_file_browser_keyboard items path offset total mode) =
      (if 20 < total ∧ 0 < offset then
        [strBytes "nav_page_" ++ strBytes (toString (max 0 (offset - 20))) ++ strBytes "_" ++
          encode_path_smart path]
      else []) ++
      (if 20 < total ∧ offset + 20 < total then
        [strBytes "nav_page_" ++ strBytes (toString (offset + 20)) ++ strBytes "_" ++
          encode_path_smart path]
      else []) := by
  unfold pageTokens get_file_browser_keyboard
  simp only [List.flatten_append, List.map_append, List.filter_append]
  have hhead : (([[Button.mk (format_breadcrumb path) (strBytes "noop")]].flatten.map
      (fun b => b.callback_data)).filter
        (fun d => startsWithBytes (strBytes "nav_page_") d)) = [] := by
    simp [sw_page_noop]
  have hfold := noPage_rows
    (fun folder => [Button.mk ("📁 " ++ truncate folder.name 35)
      (strBytes "nav_open_" ++ encode_path_smart folder.path)])
    (by
      intro a b hb
      simp only [List.mem_singleton] at hb
      subst hb
      exact sw_page_open _)
    (items.filter (fun i => i.itemType == "dir"))
  have hfile := noPage_rows
    (fun file =>
      [Button.mk ("📄 " ++ truncate file.name 20)
        (strBytes "nav_info_" ++ encode_path_smart file.path),
       Button.mk (if (file.public_url.getD "") ≠ "" then "📋" else "🔗")
         (strBytes "nav_publish_" ++ encode_path_smart file.path),
       Button.mk "🗑" (strBytes "nav_delete_" ++ encode_path_smart file.path)])
    (by
      intro a b hb
      simp only [List.mem_cons, List.mem_singleton, List.not_mem_nil, or_false] at hb
      rcases hb with rfl | rfl | rfl
      · exact sw_page_info _
      · exact sw_page_publish _
      · exact sw_page_delete _)
    (items.filter (fun i => i.itemType == "file"))
  have hup : ((if path ≠ strBytes "/" ∧ path ≠ [] then
      [[Button.mk "⬆️ Уровень выше" (strBytes "nav_up_" ++ encode_path_smart
        (if joinBytes 47 ((splitBytes 47 (rstripByte 47 path)).dropLast) = [] then strBytes "/"
         else joinBytes 47 ((splitBytes 47 (rstripByte 47 path)).dropLast)))]]
      else []).flatten.map (fun b => b.callback_data)).filter
        (fun d => startsWithBytes (strBytes "nav_page_") d) = [] := by
    rcases Decidable.em (path ≠ strBytes "/" ∧ path ≠ []) with hc | hc
    · rw [if_pos hc]
      simp [sw_page_up]
    · rw [if_neg hc]
      rfl
  have hsel : ((if mode = BrowseMode.select then
      [[Button.mk "📤 Загрузить сюда" (strBytes "nav_select_" ++ encode_path_smart path)]]
      else []).flatten.map (fun b => b.callback_data)).filter
        (fun d => startsWithBytes (strBytes "nav_page_") d) = [] := by
    rcases Decidable.em (mode = BrowseMode.select) with hc | hc
    · rw [if_pos hc]
      simp [sw_page_select]
    · rw [if_neg hc]
      rfl
  have hclose : (([[Button.mk "❌ Закрыть" (strBytes "nav_close")]].flatten.map
      (fun b => b.callback_data)).filter
        (fun d => startsWithBytes (strBytes "nav_page_") d)) = [] := by
    simp [sw_page_close]
  rw [hhead, hfold, hfile, hup, hsel, hclose]
  simp only [List.nil_append, List.append_nil]
  rcases Decidable.em ((20 : Int) < total) with ht | ht
  · rw [if_pos (show total > 20 from ht)]
    rcases Decidable.em ((0 : Int) < offset) with ho | ho
    · rcases Decidable.em (offset + 20 < total) with hn | hn
      · rw [if_pos (show offset > 0 from ho), if_pos hn]
        simp [startsWithBytes_append, ht, ho, hn]
      · rw [if_pos (show offset > 0 from ho), if_neg hn]
        simp [startsWithBytes_append, ht, ho, hn]
    · rcases Decidable.em (offset + 20 < total) with hn | hn
      · rw [if_neg (show ¬ offset > 0 from ho), if_pos hn]
        simp [startsWithBytes_append, ht, ho, hn]
      · rw [if_neg (show ¬ offset > 0 from ho), if_neg hn]
        simp [ht, ho, hn]
  · rw [if_neg (show ¬ total > 20 from ht)]
    simp [ht]

/-! ## Lemmas: smart codec dispatch -/

theorem strBytes_h_colon : strBytes "h:" = [104, 58] := by decide

theorem strBytes_p_colon : strBytes "p:" = [112, 58] := by decide

theorem decode_path_smart_hash (h : List Nat) :
    decode_path_smart (strBytes "h:" ++ h) = some (h, true) := by
  simp [decode_path_smart, strBytes_h_colon, strBytes_p_colon, startsWithBytes]

theorem drop9_nav_open (t : List Nat) : (strBytes "nav_open_" ++ t).drop 9 = t := by
  rw [show strBytes "nav_open_" = [110, 97, 118, 95, 111, 112, 101, 110, 95] from by decide]
  rfl

theorem get_after_store (tbl : StateData) (k v : List Nat) :
    get_path_from_hash (store_path_mapping tbl k v) k = some v := by
  unfold store_path_mapping get_path_from_hash
  cases tbl.path_mappings <;> simp [List.find?]

/-! ## Lemmas: oracle-independence of the progress callback -/

theorem progressReportsO_eq (cs : List Nat) : ∀ (S u last k : Nat) (orc : Nat → Bool),
    progressReportsO cs S u last orc k = (progressReports cs S u last, u + cs.sum) := by
  induction cs with
  | nil =>
      intro S u last k orc
      simp [progressReportsO, progressReports]
  | cons c cs ih =>
      intro S u last k orc
      simp only [progressReportsO, progressReports, List.sum_cons]
      rcases Decidable.em (10 ≤ (((u + c) * 100 / S : Nat) : Int) - (last : Int) ∨
          100 ≤ (u + c) * 100 / S) with hg | hg
      · rw [if_pos hg, if_pos hg]
        cases horc : orc k <;> simp [horc, ih] <;> omega
      · rw [if_neg hg, if_neg hg]
        rw [ih]
        rw [Nat.add_assoc]

/-! ## Claim theorems -/

/-- C1: the navigation handlers do not thread the browsing mode: the tokens
carry no mode, and `callback_nav_open`, `callback_nav_page` and
`callback_nav_up` all re-render with the defaulted `browse` mode, so a user in
`select` mode who opens a subfolder loses the "use this folder" control (which
`get_file_browser_keyboard` emits only in `select` mode). -/
theorem c1_navigation_rerenders_in_browse_mode :
    callback_nav_open (strBytes "nav_open_" ++ encode_path_smart (strBytes "/Photos")) ⟨none⟩ =
      NavResult.browseCall (strBytes "/Photos") 0 BrowseMode.browse ∧
    callback_nav_page (strBytes "nav_page_20_" ++ encode_path_smart (strBytes "/Photos")) ⟨none⟩ =
      NavResult.browseCall (strBytes "/Photos") 20 BrowseMode.browse ∧
    callback_nav_up (strBytes "nav_up_" ++ encode_path_smart (strBytes "/")) ⟨none⟩ =
      NavResult.browseCall (strBytes "/") 0 BrowseMode.browse ∧
    ((get_file_browser_keyboard [] (strBytes "/Photos") 0 0 BrowseMode.select).flatten.map
      (fun b => b.callback_data)).any
        (fun d => startsWithBytes (strBytes "nav_select_") d) = true ∧
    ((get_file_browser_keyboard [] (strBytes "/Photos") 0 0 BrowseMode.browse).flatten.map
      (fun b => b.callback_data)).any
        (fun d => startsWithBytes (strBytes "nav_select_") d) = false := by
  decide

/-- C2: on every run of `handle_file_upload` — size rejection, credential
failure, fetch failure, upload-URL failure, stream failure, publish failure,
persistence failure or full success — the staged temporary file is absent
when the handler returns. -/
theorem c2_temp_file_absent_after_upload (env : UploadEnv) :
    (handle_file_upload env).tempFileExists = false := by
  rcases env with ⟨s, uf, tf, fok, uuok, uok, pu, db⟩
  cases tf <;> unfold handle_file_upload cleanup_temp_file <;> dsimp only <;>
    split_ifs <;> rfl

/-- C3: the browser emits a pagination token that exceeds the 64-byte
callback-data budget: for a 35-byte path (inline-encoded, 47 base64 bytes)
rendered at offset 99980 of a directory with 100001 entries, the emitted
"next page" token `nav_page_100000_p:...` is 65 bytes long. -/
theorem c3_page_token_exceeds_budget :
    (strBytes "nav_page_100000_p:" ++
        encode_path (strBytes "/xxxxxxxxxxxxxxxxxxxxxxxxxxxxxxxxxx")) ∈
      (get_file_browser_keyboard [] (strBytes "/xxxxxxxxxxxxxxxxxxxxxxxxxxxxxxxxxx")
        99980 100001 BrowseMode.browse).flatten.map (fun b => b.callback_data) ∧
    (strBytes "nav_page_100000_p:" ++
        encode_path (strBytes "/xxxxxxxxxxxxxxxxxxxxxxxxxxxxxxxxxx")).length = 65 ∧
    ¬ (strBytes "nav_page_100000_p:" ++
        encode_path (strBytes "/xxxxxxxxxxxxxxxxxxxxxxxxxxxxxxxxxx")).length ≤ 64 := by
  decide

/-- C4: for a path long enough to force the indirect (hashed) encoding, the
emitted token is `h:` plus the digest, decoding dispatches to the table, a
registered digest resolves to exactly the registered path, and on a missing
table entry `callback_nav_open` answers the stale-path alert and performs no
navigation. -/
theorem c4_indirect_token_table_consistency (p : List Nat) (tbl tbl' : StateData)
    (hlong : 60 < (strBytes "nav_page_100_" ++ encode_path p).length) :
    encode_path_smart p = strBytes "h:" ++ hash_path p ∧
    decode_path_smart (encode_path_smart p) = some (hash_path p, true) ∧
    get_path_from_hash (store_path_mapping tbl (hash_path p) p) (hash_path p) = some p ∧
    (get_path_from_hash tbl' (hash_path p) = none →
      callback_nav_open (strBytes "nav_open_" ++ encode_path_smart p) tbl' =
        NavResult.staleAlert) := by
  have hsmart : encode_path_smart p = strBytes "h:" ++ hash_path p := by
    unfold encode_path_smart
    rw [if_neg (by omega)]
  refine ⟨hsmart, ?_, get_after_store tbl _ p, ?_⟩
  · rw [hsmart]
    exact decode_path_smart_hash _
  · intro hmiss
    rw [hsmart]
    unfold callback_nav_open
    rw [drop9_nav_open]
    simp [decode_path_smart_hash, hmiss]

set_option maxRecDepth 8000 in
/-- Witness for C4 at the 301-byte path `"/" ++ "x" * 300` with an empty
session table. -/
theorem c4_indirect_token_table_consistency_witness :
    (60 < (strBytes "nav_page_100_" ++ encode_path (47 :: List.replicate 300 120)).length) ∧
    (encode_path_smart (47 :: List.replicate 300 120) =
      strBytes "h:" ++ hash_path (47 :: List.replicate 300 120) ∧
    decode_path_smart (encode_path_smart (47 :: List.replicate 300 120)) =
      some (hash_path (47 :: List.replicate 300 120), true) ∧
    get_path_from_hash
      (store_path_mapping ⟨none⟩ (hash_path (47 :: List.replicate 300 120))
        (47 :: List.replicate 300 120))
      (hash_path (47 :: List.replicate 300 120)) = some (47 :: List.replicate 300 120) ∧
    (get_path_from_hash ⟨none⟩ (hash_path (47 :: List.replicate 300 120)) = none →
      callback_nav_open
        (strBytes "nav_open_" ++ encode_path_smart (47 :: List.replicate 300 120)) ⟨none⟩ =
        NavResult.staleAlert)) :=
  ⟨by decide, c4_indirect_token_table_consistency (47 :: List.replicate 300 120) ⟨none⟩ ⟨none⟩
    (by decide)⟩

/-- C5: for every byte-valid path whose inline encoding fits the budget probe,
the inline round trip holds without any table: `decode_path (encode_path p) =
p`, and the smart encoder indeed emits the inline `p:` form. -/
theorem c5_inline_roundtrip (p : List Nat) (hbytes : ∀ b ∈ p, b < 256)
    (hfit : (strBytes "nav_page_100_" ++ encode_path p).length ≤ 60) :
    decode_path (encode_path p) = some p ∧
    encode_path_smart p = strBytes "p:" ++ encode_path p := by
  refine ⟨decode_path_encode_path p hbytes, ?_⟩
  unfold encode_path_smart
  rw [if_pos hfit]

/-- Witness for C5 at the path `"/Projects"`. -/
theorem c5_inline_roundtrip_witness :
    (∀ b ∈ strBytes "/Projects", b < 256) ∧
    ((strBytes "nav_page_100_" ++ encode_path (strBytes "/Projects")).length ≤ 60) ∧
    (decode_path (encode_path (strBytes "/Projects")) = some (strBytes "/Projects") ∧
      encode_path_smart (strBytes "/Projects") =
        strBytes "p:" ++ encode_path (strBytes "/Projects")) :=
  ⟨by decide, by decide, c5_inline_roundtrip (strBytes "/Projects") (by decide) (by decide)⟩

/-- C6 (amended to positive sizes): for every upload of `S > 0` bytes the
reported percentages are non-decreasing, consecutive reports differ by at
least 10 unless the later one is 100, and the sequence ends with exactly one
report of 100. -/
theorem c6_progress_throttle (S : Nat) (hS : 0 < S) :
    List.Chain' (fun a b => a ≤ b ∧ (a + 10 ≤ b ∨ b = 100)) (upload_reports S) ∧
    (upload_reports S).getLast? = some 100 ∧
    (upload_reports S).count 100 = 1 := by
  obtain ⟨hg, hl, hc⟩ := progressReports_spec (mkChunks S) S 0 0 hS (mkChunks_pos S)
    (by simpa using mkChunks_sum S) (by simp)
  have hne := mkChunks_ne_nil S hS
  unfold upload_reports
  refine ⟨goodFrom_chain 0 _ hg, hl hne, ?_⟩
  rw [hc, if_neg hne]

/-- Witness for C6 at `S = 200000` (reports `[32, 65, 98, 100]`). -/
theorem c6_progress_throttle_witness :
    0 < 200000 ∧
    (List.Chain' (fun a b => a ≤ b ∧ (a + 10 ≤ b ∨ b = 100)) (upload_reports 200000) ∧
      (upload_reports 200000).getLast? = some 100 ∧
      (upload_reports 200000).count 100 = 1) :=
  ⟨by decide, c6_progress_throttle 200000 (by decide)⟩

/-- C6 counterexample: for a transfer of size 0 the guard `file_size > 0`
suppresses every progress invocation, so no 100 is ever reported and the
claim's "always ends with exactly one report of 100" fails. -/
theorem c6_zero_size_reports_nothing :
    upload_reports 0 = [] ∧ (upload_reports 0).getLast? ≠ some 100 ∧
    (upload_reports 0).count 100 = 0 := by
  decide

/-- C7 (amended): pagination tokens are exactly characterized — a "previous"
control appears iff `total > limit` and `offset > 0` (not iff `offset > 0`
alone), a "next" control appears iff `offset + limit < total`, the previous
token carries `max 0 (offset - limit) ≥ 0` and the next token carries
`offset + limit`, which its guard keeps below `total`. -/
theorem c7_pagination_tokens (items : List DiskItem) (path : List Nat)
    (offset total : Int) (mode : BrowseMode) :
    (pageTokens (get_file_browser_keyboard items path offset total mode) =
      (if 20 < total ∧ 0 < offset then
        [strBytes "nav_page_" ++ strBytes (toString (max 0 (offset - 20))) ++ strBytes "_" ++
          encode_path_smart path]
      else []) ++
      (if 20 < total ∧ offset + 20 < total then
        [strBytes "nav_page_" ++ strBytes (toString (offset + 20)) ++ strBytes "_" ++
          encode_path_smart path]
      else [])) ∧
    (0 : Int) ≤ max 0 (offset - 20) :=
  ⟨pageTokens_characterization items path offset total mode, le_max_left 0 _⟩

/-- C7 counterexample: a page rendered with `offset = 40` in a directory of
`total = 5` entries (a stale pagination token after the directory shrank)
shows no "previous" control although `offset > 0`, refuting the claim's
"previous appears iff `offset > 0`". -/
theorem c7_prev_missing_at_stale_offset :
    (0 : Int) < 40 ∧
    pageTokens (get_file_browser_keyboard [] (strBytes "/") 40 5 BrowseMode.browse) = [] := by
  decide

/-- C8: an upload whose declared size exceeds the 2 GB cap is rejected with a
message stating the actual and maximum sizes, and the handler issues no
external call at all — no credential fetch, no blob fetch, no staging, no
upload-URL request, no stream, no publish. -/
theorem c8_oversized_rejected_before_io (env : UploadEnv)
    (h : env.file_size > MAX_FILE_SIZE) :
    handle_file_upload env =
      { calls := [], msgs := [UserMsg.oversized env.file_size MAX_FILE_SIZE],
        logs := [], tempFileExists := false } := by
  unfold handle_file_upload
  rw [if_pos h]

/-- Witness for C8 at `size = 2 GB + 1`. -/
theorem c8_oversized_rejected_before_io_witness :
    (2147483649 : Nat) > MAX_FILE_SIZE ∧
    handle_file_upload
      { file_size := 2147483649, upload_folder := none,
        tokenFetch := TokenFetch.valid (strBytes "TelegramBot"), fetchOk := true,
        uploadUrlOk := true, uploadOk := true, publishUrl := none, dbSaveOk := true } =
      { calls := [], msgs := [UserMsg.oversized 2147483649 MAX_FILE_SIZE],
        logs := [], tempFileExists := false } :=
  ⟨by decide,
    c8_oversized_rejected_before_io
      { file_size := 2147483649, upload_folder := none,
        tokenFetch := TokenFetch.valid (strBytes "TelegramBot"), fetchOk := true,
        uploadUrlOk := true, uploadOk := true, publishUrl := none, dbSaveOk := true }
      (by decide)⟩

/-- C9 (amended): when the remote write succeeds and only the metadata
persistence fails, the failure is logged, no compensating remote delete is
issued, the run still ends with the success report — and the failure is
invisible to the user: the user-visible messages are identical to the run in
which persistence succeeds. -/
theorem c9_persistence_failure_logged_only (size : Nat) (uf : Option (List Nat))
    (f : List Nat) (pu : Option (List Nat)) (hsize : size ≤ MAX_FILE_SIZE) :
    (handle_file_upload ⟨size, uf, TokenFetch.valid f, true, true, true, pu, false⟩).logs =
      [LogMsg.errorSavingMetadata] ∧
    ExtCall.remoteDelete ∉
      (handle_file_upload ⟨size, uf, TokenFetch.valid f, true, true, true, pu, false⟩).calls ∧
    (handle_file_upload ⟨size, uf, TokenFetch.valid f, true, true, true, pu, false⟩).msgs.getLast?
      = some (UserMsg.success pu.isSome) ∧
    (handle_file_upload ⟨size, uf, TokenFetch.valid f, true, true, true, pu, false⟩).msgs =
      (handle_file_upload ⟨size, uf, TokenFetch.valid f, true, true, true, pu, true⟩).msgs := by
  unfold handle_file_upload cleanup_temp_file
  rw [if_neg (by omega : ¬ size > MAX_FILE_SIZE), if_neg (by omega : ¬ size > MAX_FILE_SIZE)]
  simp

/-- Witness for C9 at a concrete successful upload with failing persistence. -/
theorem c9_persistence_failure_logged_only_witness :
    (100 : Nat) ≤ MAX_FILE_SIZE ∧
    ((handle_file_upload ⟨100, none, TokenFetch.valid (strBytes "TelegramBot"), true, true,
        true, some (strBytes "u"), false⟩).logs = [LogMsg.errorSavingMetadata] ∧
    ExtCall.remoteDelete ∉
      (handle_file_upload ⟨100, none, TokenFetch.valid (strBytes "TelegramBot"), true, true,
        true, some (strBytes "u"), false⟩).calls ∧
    (handle_file_upload ⟨100, none, TokenFetch.valid (strBytes "TelegramBot"), true, true,
        true, some (strBytes "u"), false⟩).msgs.getLast?
      = some (UserMsg.success (some (strBytes "u")).isSome) ∧
    (handle_file_upload ⟨100, none, TokenFetch.valid (strBytes "TelegramBot"), true, true,
        true, some (strBytes "u"), false⟩).msgs =
      (handle_file_upload ⟨100, none, TokenFetch.valid (strBytes "TelegramBot"), true, true,
        true, some (strBytes "u"), true⟩).msgs) :=
  ⟨by decide, c9_persistence_failure_logged_only 100 none (strBytes "TelegramBot")
    (some (strBytes "u")) (by decide)⟩

/-- C9 counterexample: the persistence failure is silently hidden from the
user — the user-visible message sequence of the failing-persistence run is
exactly that of the successful run (the failure shows up only in the log),
refuting "not silently hidden from the user". -/
theorem c9_persistence_failure_invisible_to_user :
    (handle_file_upload ⟨100, none, TokenFetch.valid (strBytes "T"), true, true, true,
        some (strBytes "u"), false⟩).msgs =
      (handle_file_upload ⟨100, none, TokenFetch.valid (strBytes "T"), true, true, true,
        some (strBytes "u"), true⟩).msgs ∧
    (handle_file_upload ⟨100, none, TokenFetch.valid (strBytes "T"), true, true, true,
        some (strBytes "u"), false⟩).logs ≠
      (handle_file_upload ⟨100, none, TokenFetch.valid (strBytes "T"), true, true, true,
        some (strBytes "u"), true⟩).logs := by
  decide

/-- C10: a status-edit failure inside the progress callback is caught by its
bare `except` and changes nothing observable: for every edit-outcome oracle
the reported percentages equal the unfailing run's, and the stream still
consumes every chunk (final `uploaded` is the whole transfer). -/
theorem c10_edit_failure_never_aborts_stream (cs : List Nat) (S u last k : Nat)
    (orc : Nat → Bool) :
    (progressReportsO cs S u last orc k).1 = progressReports cs S u last ∧
    (progressReportsO cs S u last orc k).2 = u + cs.sum := by
  rw [progressReportsO_eq]
  exact ⟨rfl, rfl⟩

end YaDisk
